import Mathlib

/-!
Shallow embedding of src/awd_submitter.py (AWD flag submission tool).

Strings are modelled as List Char.  Network effects are modelled by
explicit oracles: the outcome of each HTTP attempt of submit_single is an
AttemptOutcome supplied by an oracle indexed by the attempt number, and
the outcome of harvesting a task via future.result() is an Except value
(ok when submit_single returned, error when the task raised, e.g. a
KeyError from a malformed target mapping).  A Python exception escaping a
modelled function is an Except.error return; in particular the
ZeroDivisionError that sum(...)/len(results) raises on an empty results
list is the RunError.zeroDivision value.
-/

set_option autoImplicit false

namespace AWD

/-- Characters removed by Python str.strip with no argument (the ASCII
whitespace characters; further Unicode whitespace exists in Python but
plays no role in any statement below, since every statement trims both of
its sides with this same function). -/
def isPySpace (c : Char) : Bool :=
  c = ' ' || c = '\t' || c = '\n' || c = '\r' || c = '\x0b' || c = '\x0c'

/-- Python str.strip(): drop leading and trailing whitespace. -/
def pyStrip (cs : List Char) : List Char :=
  ((cs.dropWhile isPySpace).reverse.dropWhile isPySpace).reverse

/-- One character of the regex class [a-f0-9] under re.I: an ASCII digit
or a hex letter of either case. -/
def isHexCI (c : Char) : Bool :=
  (48 ≤ c.toNat && c.toNat ≤ 57) || (97 ≤ c.toNat && c.toNat ≤ 102) ||
    (65 ≤ c.toNat && c.toNat ≤ 70)

/-- The opening brace character appearing in FLAG_REGEX. -/
def lbrace : Char := Char.ofNat 123

/-- The closing brace character appearing in FLAG_REGEX. -/
def rbrace : Char := Char.ofNat 125

/-- The literal prefix of FLAG_REGEX: the word flag followed by an
opening brace. -/
def flagLit : List Char := ['f', 'l', 'a', 'g', lbrace]

/-- Consume a literal, case-insensitively (re.I), returning the rest of
the input on success. -/
def matchLitCI : List Char → List Char → Option (List Char)
  | [], cs => some cs
  | _ :: _, [] => none
  | l :: ls, c :: cs => if c.toLower = l.toLower then matchLitCI ls cs else none

/-- Consume exactly n characters of the class [a-f0-9] (re.I). -/
def matchHexN : Nat → List Char → Option (List Char)
  | 0, cs => some cs
  | _ + 1, [] => none
  | n + 1, c :: cs => if isHexCI c then matchHexN n cs else none

/-- Consume one exact character. -/
def matchChar (a : Char) : List Char → Option (List Char)
  | [] => none
  | c :: cs => if c = a then some cs else none

/-- Run FLAG_REGEX as a whole-string matcher: some () exactly when
FLAG_REGEX.fullmatch succeeds on the input (the prefix, the five hex
groups of lengths 8-4-4-4-12 separated by hyphens, the closing brace, and
nothing after it). -/
def fullmatchFlag (cs : List Char) : Option Unit :=
  (matchLitCI flagLit cs).bind fun r0 =>
  (matchHexN 8 r0).bind fun r1 =>
  (matchChar '-' r1).bind fun r2 =>
  (matchHexN 4 r2).bind fun r3 =>
  (matchChar '-' r3).bind fun r4 =>
  (matchHexN 4 r4).bind fun r5 =>
  (matchChar '-' r5).bind fun r6 =>
  (matchHexN 4 r6).bind fun r7 =>
  (matchChar '-' r7).bind fun r8 =>
  (matchHexN 12 r8).bind fun r9 =>
  (matchChar rbrace r9).bind fun r10 =>
  if r10.isEmpty then some () else none

/-- AWDFlagSubmitter._validate_flag: bool(FLAG_REGEX.fullmatch(flag.strip())). -/
def validateFlag (flag : List Char) : Bool :=
  (fullmatchFlag (pyStrip flag)).isSome

/-- A target mapping from the configuration (ip, port, path, protocol,
optional timeout, optional headers), as consumed by submit_single. -/
structure Target where
  ip : List Char
  port : Nat
  path : List Char
  protocol : List Char
  timeout : Option Nat
  headers : Option (List (List Char × List Char))
deriving DecidableEq

/-- The result dict built by submit_single.  Fields absent from the dict
are none: status_code, response and attempt are only set when an HTTP
response was received; error is only set when some attempt raised. -/
structure SubmissionResult where
  target : List Char
  flag : List Char
  success : Bool
  status_code : Option Nat
  response : Option (List Char)
  attempt : Option Nat
  error : Option (List Char)
deriving DecidableEq

/-- The initial result dict of submit_single: target "ip:port", redacted
flag preview (first 8 characters plus an ellipsis), success False. -/
def initResult (target : Target) (flag : List Char) : SubmissionResult :=
  { target := target.ip ++ ':' :: Nat.toDigits 10 target.port
    flag := flag.take 8 ++ ['.', '.', '.']
    success := false
    status_code := none
    response := none
    attempt := none
    error := none }

/-- What one HTTP attempt of submit_single produces: an HTTP response
(any status code) or a transport-level exception with a message. -/
inductive AttemptOutcome where
  | response (status : Nat) (text : List Char)
  | exc (msg : List Char)
deriving DecidableEq

/-- The retry loop of submit_single, for attempt in range(1, max_retries+1).
The oracle gives the outcome of the HTTP POST of each attempt number.
Returns the final result dict together with the number of HTTP attempts
actually performed.  A response updates status_code, response text
truncated to 100 characters, the attempt number and success, then breaks;
an exception records its message in error and continues to the next
attempt. -/
def submitLoop (oracle : Nat → AttemptOutcome) :
    Nat → Nat → SubmissionResult → SubmissionResult × Nat
  | 0, _, acc => (acc, 0)
  | fuel + 1, attempt, acc =>
    match oracle attempt with
    | AttemptOutcome.response st txt =>
      ({ acc with status_code := some st
                  response := some (txt.take 100)
                  attempt := some attempt
                  success := st == 200 }, 1)
    | AttemptOutcome.exc msg =>
      let p := submitLoop oracle fuel (attempt + 1) { acc with error := some msg }
      (p.1, p.2 + 1)

/-- AWDFlagSubmitter.submit_single: run the retry loop from attempt 1 with
max_retries as the number of loop iterations, starting from the initial
result dict. -/
def submit_single (target : Target) (flag : List Char) (oracle : Nat → AttemptOutcome)
    (maxRetries : Nat) : SubmissionResult × Nat :=
  submitLoop oracle maxRetries 1 (initResult target flag)

/-- The futures list of submit_all: for flag in flags, for target in
targets, one task per (flag, target) pair, in that nesting order. -/
def crossTasks : List (List Char) → List Target → List (List Char × Target)
  | [], _ => []
  | f :: fs, ts => ts.map (fun t => (f, t)) ++ crossTasks fs ts

/-- The harvesting loop of submit_all: for each future in submission
order, future.result() is appended to results when the task returned
normally; when it raised, the exception is caught, logged and the task is
dropped.  runTask models future.result(). -/
def harvest (runTask : List Char → Target → Except (List Char) SubmissionResult) :
    List (List Char × Target) → List SubmissionResult
  | [] => []
  | task :: rest =>
    match runTask task.1 task.2 with
    | Except.ok r => r :: harvest runTask rest
    | Except.error _ => harvest runTask rest

/-- sum(1 for r in results if r.success). -/
def successCount (results : List SubmissionResult) : Nat :=
  (results.filter (fun r => r.success)).length

/-- The success-rate expression of submit_all:
sum(...) / len(results) * 100.  Python raises ZeroDivisionError when
results is empty; that is the none case. -/
def successRate (results : List SubmissionResult) : Option ℚ :=
  if results.length = 0 then none
  else some ((successCount results : ℚ) / (results.length : ℚ) * 100)

/-- An exception escaping submit_all itself. -/
inductive RunError where
  | zeroDivision
deriving DecidableEq

/-- AWDFlagSubmitter.submit_all: return [] at once when flags is empty;
otherwise build the futures for the cross product, harvest them in
submission order, then compute the success rate (which raises
ZeroDivisionError when every task was dropped), and return the results. -/
def submit_all (targets : List Target)
    (runTask : List Char → Target → Except (List Char) SubmissionResult)
    (flags : List (List Char)) : Except RunError (List SubmissionResult) :=
  if flags.isEmpty then Except.ok []
  else
    let results := harvest runTask (crossTasks flags targets)
    match successRate results with
    | none => Except.error RunError.zeroDivision
    | some _ => Except.ok results

/-- The percentage printed by the statistics line of main:
success_count / len(results) * 100.  ZeroDivisionError on an empty
results list is the none case. -/
def summaryPercent (results : List SubmissionResult) : Option ℚ :=
  if results.length = 0 then none
  else some ((successCount results : ℚ) / (results.length : ℚ) * 100)

/-- The configuration mapping as consumed by AWDFlagSubmitter.__init__:
each key may be absent (none), in which case .get supplies the default. -/
structure ConfigData where
  targets : Option (List Target)
  max_workers : Option Nat
  max_retries : Option Nat
  verify_ssl : Option Bool
deriving DecidableEq

/-- A constructed AWDFlagSubmitter. -/
structure Submitter where
  targets : List Target
  max_workers : Nat
  max_retries : Nat
  verify_ssl : Bool
deriving DecidableEq

/-- AWDFlagSubmitter.__init__: read the fields with their defaults and
raise ValueError (the error case, before any HTTP activity) when the
targets list is empty or absent. -/
def mkSubmitter (cfg : ConfigData) : Except (List Char) Submitter :=
  let ts := cfg.targets.getD []
  if ts.isEmpty then Except.error ("at least one target required".toList)
  else Except.ok
    { targets := ts
      max_workers := cfg.max_workers.getD 5
      max_retries := cfg.max_retries.getD 2
      verify_ssl := cfg.verify_ssl.getD false }

/-- The list comprehension of _read_flags_file:
the line, stripped, is kept for every line passing _validate_flag. -/
def read_flags_lines : List (List Char) → List (List Char)
  | [] => []
  | line :: rest =>
    if validateFlag line then pyStrip line :: read_flags_lines rest
    else read_flags_lines rest

/-- AWDFlagSubmitter._read_flags_file: opening and reading the file
either yields its lines or raises; any exception is caught and an empty
list returned. -/
def read_flags_file (contents : Except (List Char) (List (List Char))) :
    List (List Char) :=
  match contents with
  | Except.error _ => []
  | Except.ok lines => read_flags_lines lines

/-- Python truthiness of the optional config_path string: None and the
empty string are falsy. -/
def pathTruthy (p : Option (List Char)) : Bool :=
  match p with
  | none => false
  | some s => !s.isEmpty

/-- First example target of DEFAULT_CONFIG. -/
def defaultTarget1 : Target :=
  { ip := "192.168.1.100".toList
    port := 80
    path := "/submit.php".toList
    protocol := "http".toList
    timeout := some 3
    headers := some [("User-Agent".toList, "AWD-Submitter/1.0".toList)] }

/-- Second example target of DEFAULT_CONFIG. -/
def defaultTarget2 : Target :=
  { ip := "10.0.0.2".toList
    port := 8080
    path := "/api/submit".toList
    protocol := "https".toList
    timeout := some 5
    headers := none }

/-- yaml.safe_load(DEFAULT_CONFIG): two example targets and no other keys. -/
def defaultConfig : ConfigData :=
  { targets := some [defaultTarget1, defaultTarget2]
    max_workers := none
    max_retries := none
    verify_ssl := none }

/-- load_config: when a truthy path is given and the file exists, open
and parse it — readResult models that, and any exception it raises
propagates to the caller; otherwise warn and return the built-in default
configuration. -/
def load_config (config_path : Option (List Char)) (pathExists : Bool)
    (readResult : Except (List Char) ConfigData) : Except (List Char) ConfigData :=
  if pathTruthy config_path && pathExists then readResult
  else Except.ok defaultConfig

/-- A concrete flag in canonical shape, for witnesses. -/
def sampleFlag : List Char :=
  "flag\x7b12345678-1234-1234-1234-123456789012\x7d".toList

/-- A second concrete flag, with upper-case prefix and hex letters. -/
def flagB : List Char :=
  "FLAG\x7babcdefAB-0123-4567-89ab-cdef01234567\x7d".toList

/-- A file line whose flag is padded with surrounding whitespace. -/
def paddedFlagLine : List Char := ' ' :: sampleFlag ++ ['\n']

/-- A group of the regex body: exactly n characters of class [a-f0-9]
under re.I. -/
def IsHexGroup (n : Nat) (g : List Char) : Prop :=
  g.length = n ∧ ∀ c ∈ g, isHexCI c = true

/-- The shape named by the specification for a valid flag: a
case-insensitive literal prefix (the word flag and an opening brace), a
32-hex-digit body segmented 8-4-4-4-12 by hyphens, and a closing brace,
making up the whole string. -/
def SpecFlagShape (s : List Char) : Prop :=
  ∃ p g1 g2 g3 g4 g5,
    p.map Char.toLower = flagLit ∧
    IsHexGroup 8 g1 ∧ IsHexGroup 4 g2 ∧ IsHexGroup 4 g3 ∧ IsHexGroup 4 g4 ∧
    IsHexGroup 12 g5 ∧
    s = p ++ (g1 ++ ('-' :: (g2 ++ ('-' :: (g3 ++ ('-' :: (g4 ++ ('-' ::
      (g5 ++ [rbrace])))))))))

/- Theorems.  Claim-level statements are named c1 to c10 after the
properties they settle; the remaining theorems are shared lemmas. -/

theorem submitLoop_exc_step (oracle : Nat → AttemptOutcome) (fuel start : Nat)
    (acc : SubmissionResult) (msg : List Char)
    (h : oracle start = AttemptOutcome.exc msg) :
    submitLoop oracle (fuel + 1) start acc =
      ((submitLoop oracle fuel (start + 1) { acc with error := some msg }).1,
       (submitLoop oracle fuel (start + 1) { acc with error := some msg }).2 + 1) := by
  rw [submitLoop, h]

theorem submitLoop_resp_step (oracle : Nat → AttemptOutcome) (fuel start : Nat)
    (acc : SubmissionResult) (st : Nat) (txt : List Char)
    (h : oracle start = AttemptOutcome.response st txt) :
    submitLoop oracle (fuel + 1) start acc =
      ({ acc with status_code := some st
                  response := some (txt.take 100)
                  attempt := some start
                  success := st == 200 }, 1) := by
  rw [submitLoop, h]

theorem submitLoop_all_exc (oracle : Nat → AttemptOutcome) (m : Nat → List Char)
    (h : ∀ i, oracle i = AttemptOutcome.exc (m i)) :
    ∀ fuel start acc, submitLoop oracle (fuel + 1) start acc =
      ({ acc with error := some (m (start + fuel)) }, fuel + 1) := by
  intro fuel
  induction fuel with
  | zero =>
    intro start acc
    rw [submitLoop_exc_step oracle 0 start acc (m start) (h start)]
    rfl
  | succ n ih =>
    intro start acc
    rw [submitLoop_exc_step oracle (n + 1) start acc (m start) (h start),
      ih (start + 1), show start + 1 + n = start + (n + 1) by omega]

theorem submitLoop_first_resp (oracle : Nat → AttemptOutcome) (st : Nat)
    (txt : List Char) :
    ∀ d fuel start acc, d < fuel →
      (∀ j, j < d → ∃ msg, oracle (start + j) = AttemptOutcome.exc msg) →
      oracle (start + d) = AttemptOutcome.response st txt →
      ∃ e, submitLoop oracle fuel start acc =
        ({ acc with status_code := some st
                    response := some (txt.take 100)
                    attempt := some (start + d)
                    success := st == 200
                    error := e }, d + 1) := by
  intro d
  induction d with
  | zero =>
    intro fuel start acc hlt _ hresp
    obtain ⟨f, rfl⟩ : ∃ f, fuel = f + 1 := ⟨fuel - 1, by omega⟩
    refine ⟨acc.error, ?_⟩
    rw [show start + 0 = start from rfl] at hresp
    rw [submitLoop_resp_step oracle f start acc st txt hresp]
    rfl
  | succ d ih =>
    intro fuel start acc hlt hexc hresp
    obtain ⟨f, rfl⟩ : ∃ f, fuel = f + 1 := ⟨fuel - 1, by omega⟩
    obtain ⟨msg, hmsg⟩ := hexc 0 (Nat.succ_pos d)
    rw [show start + 0 = start from rfl] at hmsg
    have hexcS : ∀ j, j < d → ∃ msg, oracle (start + 1 + j) = AttemptOutcome.exc msg := by
      intro j hj
      have := hexc (j + 1) (by omega)
      rwa [show start + (j + 1) = start + 1 + j by omega] at this
    have hrespS : oracle (start + 1 + d) = AttemptOutcome.response st txt := by
      rwa [show start + (d + 1) = start + 1 + d by omega] at hresp
    obtain ⟨e, he⟩ := ih f (start + 1) { acc with error := some msg }
      (by omega) hexcS hrespS
    refine ⟨e, ?_⟩
    rw [submitLoop_exc_step oracle f start acc msg hmsg, he,
      show start + 1 + d = start + (d + 1) by omega]

/-- C2 (as stated, refuted): with every attempt raising and max_retries = 2,
exactly two HTTP attempts are made, but the result does not record the
attempt count reached: its attempt field is absent. -/
theorem c2_counterexample :
    (submit_single defaultTarget1 sampleFlag
        (fun _ => AttemptOutcome.exc ("connection refused".toList)) 2).2 = 2 ∧
    (submit_single defaultTarget1 sampleFlag
        (fun _ => AttemptOutcome.exc ("connection refused".toList)) 2).1.attempt
      = none ∧
    (submit_single defaultTarget1 sampleFlag
        (fun _ => AttemptOutcome.exc ("connection refused".toList)) 2).1.attempt
      ≠ some 2 := by
  decide

/-- C2 (amended): a task whose every attempt raises a transport-level
exception makes exactly max_retries HTTP attempts, never more, and its
result has success false and error set to the last error message; the
attempt count is not recorded (the attempt field is only written when a
response is received). -/
theorem c2_retry_exhaustion (target : Target) (flag : List Char)
    (oracle : Nat → AttemptOutcome) (m : Nat → List Char) (maxRetries : Nat)
    (hpos : 1 ≤ maxRetries)
    (h : ∀ i, oracle i = AttemptOutcome.exc (m i)) :
    (submit_single target flag oracle maxRetries).2 = maxRetries ∧
    (submit_single target flag oracle maxRetries).1.success = false ∧
    (submit_single target flag oracle maxRetries).1.error = some (m maxRetries) ∧
    (submit_single target flag oracle maxRetries).1.attempt = none := by
  obtain ⟨k, rfl⟩ : ∃ k, maxRetries = k + 1 := ⟨maxRetries - 1, by omega⟩
  unfold submit_single
  rw [submitLoop_all_exc oracle m h k 1]
  refine ⟨rfl, rfl, ?_, rfl⟩
  rw [show 1 + k = k + 1 by omega]

/-- Witness for c2_retry_exhaustion at a concrete input. -/
theorem c2_retry_exhaustion_witness :
    (submit_single defaultTarget1 sampleFlag
        (fun _ => AttemptOutcome.exc ("connection refused".toList)) 2).2 = 2 ∧
    (submit_single defaultTarget1 sampleFlag
        (fun _ => AttemptOutcome.exc ("connection refused".toList)) 2).1.success
      = false ∧
    (submit_single defaultTarget1 sampleFlag
        (fun _ => AttemptOutcome.exc ("connection refused".toList)) 2).1.error
      = some ("connection refused".toList) ∧
    (submit_single defaultTarget1 sampleFlag
        (fun _ => AttemptOutcome.exc ("connection refused".toList)) 2).1.attempt
      = none :=
  c2_retry_exhaustion defaultTarget1 sampleFlag
    (fun _ => AttemptOutcome.exc ("connection refused".toList))
    (fun _ => "connection refused".toList) 2 (by decide) (fun _ => rfl)

/-- C4: an attempt that produces an HTTP response ends the retry loop (no
further attempt is made), success equals status_code == 200, and the
result records the attempt number and the status code (and the response
text truncated to 100 characters). -/
theorem c4_response_ends_retries (target : Target) (flag : List Char)
    (oracle : Nat → AttemptOutcome) (st : Nat) (txt : List Char)
    (k maxRetries : Nat) (hk1 : 1 ≤ k) (hk2 : k ≤ maxRetries)
    (hexc : ∀ i, 1 ≤ i → i < k → ∃ msg, oracle i = AttemptOutcome.exc msg)
    (hresp : oracle k = AttemptOutcome.response st txt) :
    (submit_single target flag oracle maxRetries).2 = k ∧
    (submit_single target flag oracle maxRetries).1.success = (st == 200) ∧
    (submit_single target flag oracle maxRetries).1.status_code = some st ∧
    (submit_single target flag oracle maxRetries).1.attempt = some k ∧
    (submit_single target flag oracle maxRetries).1.response
      = some (txt.take 100) := by
  obtain ⟨d, rfl⟩ : ∃ d, k = d + 1 := ⟨k - 1, by omega⟩
  have hexcS : ∀ j, j < d → ∃ msg, oracle (1 + j) = AttemptOutcome.exc msg :=
    fun j hj => hexc (1 + j) (by omega) (by omega)
  have hresp1 : oracle (1 + d) = AttemptOutcome.response st txt := by
    rwa [show (1 : Nat) + d = d + 1 by omega]
  obtain ⟨e, he⟩ := submitLoop_first_resp oracle st txt d maxRetries 1
    (initResult target flag) (by omega) hexcS hresp1
  rw [show (1 : Nat) + d = d + 1 by omega] at he
  unfold submit_single
  rw [he]
  exact ⟨rfl, rfl, rfl, rfl, rfl⟩

/-- Witness for c4_response_ends_retries: the spec scenario of a target
that always answers HTTP 500 with max_retries = 2 gives success false,
attempt 1, status code 500, after a single attempt. -/
theorem c4_response_ends_retries_witness :
    (submit_single defaultTarget1 sampleFlag
        (fun _ => AttemptOutcome.response 500 ("Rejected".toList)) 2).2 = 1 ∧
    (submit_single defaultTarget1 sampleFlag
        (fun _ => AttemptOutcome.response 500 ("Rejected".toList)) 2).1.success
      = false ∧
    (submit_single defaultTarget1 sampleFlag
        (fun _ => AttemptOutcome.response 500 ("Rejected".toList)) 2).1.status_code
      = some 500 ∧
    (submit_single defaultTarget1 sampleFlag
        (fun _ => AttemptOutcome.response 500 ("Rejected".toList)) 2).1.attempt
      = some 1 := by
  have h := c4_response_ends_retries defaultTarget1 sampleFlag
    (fun _ => AttemptOutcome.response 500 ("Rejected".toList)) 500
    ("Rejected".toList) 1 2 (by decide) (by decide)
    (fun i _ hi => absurd hi (by omega)) rfl
  exact ⟨h.1, h.2.1, h.2.2.1, h.2.2.2.1⟩

/-- C5: submit_all on an empty flag list returns the empty result list at
once, and the futures list for an empty flag list is empty, so no HTTP
request is performed, whatever the targets are. -/
theorem c5_empty_flags (targets : List Target)
    (runTask : List Char → Target → Except (List Char) SubmissionResult) :
    submit_all targets runTask [] = Except.ok [] ∧ crossTasks [] targets = [] :=
  ⟨rfl, rfl⟩

/-- Witness for c5_empty_flags at a concrete configuration. -/
theorem c5_empty_flags_witness :
    submit_all [defaultTarget1, defaultTarget2]
      (fun f t => Except.ok (initResult t f)) [] = Except.ok [] ∧
    crossTasks [] [defaultTarget1, defaultTarget2] = [] :=
  c5_empty_flags [defaultTarget1, defaultTarget2]
    (fun f t => Except.ok (initResult t f))

/-- C6: constructing the engine raises exactly when the configured
targets list is empty or absent; with at least one target the
construction succeeds.  The constructor is a pure check on the
configuration, so the error is raised before any HTTP activity. -/
theorem c6_constructor_guard (cfg : ConfigData) :
    (mkSubmitter cfg = Except.error ("at least one target required".toList) ↔
      cfg.targets.getD [] = []) ∧
    (cfg.targets.getD [] ≠ [] → mkSubmitter cfg = Except.ok
      { targets := cfg.targets.getD []
        max_workers := cfg.max_workers.getD 5
        max_retries := cfg.max_retries.getD 2
        verify_ssl := cfg.verify_ssl.getD false }) := by
  rcases hts : cfg.targets.getD [] with _ | ⟨t, ts⟩
  · simp [mkSubmitter, hts]
  · simp [mkSubmitter, hts]

/-- Witness for c6_constructor_guard: an empty targets list raises, the
default two-target configuration constructs. -/
theorem c6_constructor_guard_witness :
    mkSubmitter { targets := some [], max_workers := none, max_retries := none,
                  verify_ssl := none }
      = Except.error ("at least one target required".toList) ∧
    mkSubmitter defaultConfig = Except.ok
      { targets := [defaultTarget1, defaultTarget2], max_workers := 5,
        max_retries := 2, verify_ssl := false } :=
  ⟨(c6_constructor_guard _).1.mpr rfl,
   (c6_constructor_guard defaultConfig).2 (List.cons_ne_nil _ _)⟩

/-- C1 (the code at the failing input): the success-rate expression of
submit_all and the percentage of the statistics line of main are both
undefined (ZeroDivisionError) on an empty results list, and a run whose
every harvest raises reaches exactly that state: submit_all itself raises
ZeroDivisionError. -/
theorem c1_empty_rate_divzero :
    successRate [] = none ∧ summaryPercent [] = none ∧
    submit_all [defaultTarget1] (fun _ _ => Except.error ("KeyError: port".toList))
      [sampleFlag] = Except.error RunError.zeroDivision :=
  ⟨rfl, rfl, rfl⟩

/-- C7 (as stated, refuted): a line whose flag is padded with whitespace
passes validation, but the list returned by _read_flags_file holds its
stripped form, not the original line. -/
theorem c7_counterexample :
    read_flags_file (Except.ok [paddedFlagLine]) = [sampleFlag] ∧
    read_flags_file (Except.ok [paddedFlagLine]) ≠ [paddedFlagLine] := by
  decide

/-- C7 (amended): loading from a readable file returns, in file order,
exactly the stripped forms of the lines that pass validation; invalid
lines are silently skipped; a read failure yields the empty list without
raising to the caller. -/
theorem c7_file_load (lines : List (List Char)) (err : List Char) :
    read_flags_file (Except.ok lines) =
      (lines.filter (fun l => validateFlag l)).map pyStrip ∧
    read_flags_file (Except.error err) = [] := by
  refine ⟨?_, rfl⟩
  show read_flags_lines lines = _
  induction lines with
  | nil => rfl
  | cons line rest ih =>
    by_cases h : validateFlag line
    · simp [read_flags_lines, List.filter_cons, h, ih]
    · simp [read_flags_lines, List.filter_cons, h, ih]

/-- Witness for c7_file_load: a file of three valid lines (one padded)
and two malformed lines yields exactly the three stripped flags, in file
order. -/
theorem c7_file_load_witness :
    read_flags_file (Except.ok
        [sampleFlag, "garbage".toList, flagB, "flag".toList, paddedFlagLine]) =
      [sampleFlag, flagB, sampleFlag] := by
  rw [(c7_file_load
    [sampleFlag, "garbage".toList, flagB, "flag".toList, paddedFlagLine] []).1]
  decide

/-- C8 (as stated, refuted): when the configuration path exists but
reading it raises, load_config propagates the exception to the caller
instead of returning the default configuration. -/
theorem c8_counterexample :
    load_config (some ['c']) true (Except.error ("Permission denied".toList)) =
      Except.error ("Permission denied".toList) ∧
    load_config (some ['c']) true (Except.error ("Permission denied".toList)) ≠
      Except.ok defaultConfig :=
  ⟨rfl, fun h => Except.noConfusion h⟩

/-- C8 (amended): when no truthy configuration path is given or the file
does not exist, load_config returns the built-in default configuration,
which carries two example targets; when a truthy path exists, the read
result — including any exception raised while reading or parsing — is
passed through to the caller. -/
theorem c8_default_config (p : Option (List Char)) (ex : Bool)
    (readResult : Except (List Char) ConfigData) :
    (¬(pathTruthy p = true ∧ ex = true) →
      load_config p ex readResult = Except.ok defaultConfig) ∧
    (pathTruthy p = true ∧ ex = true → load_config p ex readResult = readResult) ∧
    (defaultConfig.targets.getD []).length = 2 := by
  unfold load_config
  by_cases h : pathTruthy p = true ∧ ex = true
  · have hb : (pathTruthy p && ex) = true := by
      simp only [Bool.and_eq_true]
      exact h
    rw [if_pos hb]
    exact ⟨fun hn => absurd h hn, fun _ => rfl, rfl⟩
  · have hb : ¬((pathTruthy p && ex) = true) := by
      simp only [Bool.and_eq_true]
      exact h
    rw [if_neg hb]
    exact ⟨fun _ => rfl, fun hx => absurd hx h, rfl⟩

/-- Witness for c8_default_config: with no path given, loading returns
the default configuration and that configuration has two targets. -/
theorem c8_default_config_witness :
    load_config none true (Except.error ("unreadable".toList)) =
      Except.ok defaultConfig ∧
    (defaultConfig.targets.getD []).length = 2 :=
  ⟨(c8_default_config none true (Except.error ("unreadable".toList))).1
      (by decide),
   (c8_default_config none true (Except.error ("unreadable".toList))).2.2⟩

theorem crossTasks_length (flags : List (List Char)) (targets : List Target) :
    (crossTasks flags targets).length = flags.length * targets.length := by
  induction flags with
  | nil => simp [crossTasks]
  | cons f fs ih =>
    show (targets.map (fun t => (f, t)) ++ crossTasks fs targets).length = _
    simp [ih, Nat.succ_mul, Nat.add_comm]

theorem harvest_length_le
    (runTask : List Char → Target → Except (List Char) SubmissionResult) :
    ∀ tasks, (harvest runTask tasks).length ≤ tasks.length := by
  intro tasks
  induction tasks with
  | nil => exact Nat.le_refl 0
  | cons task rest ih =>
    cases h : runTask task.1 task.2 with
    | ok r =>
      simp only [harvest, h, List.length_cons]
      exact Nat.succ_le_succ ih
    | error e =>
      simp only [harvest, h, List.length_cons]
      exact Nat.le_succ_of_le ih

theorem harvest_all_ok
    (runTask : List Char → Target → Except (List Char) SubmissionResult)
    (g : List Char → Target → SubmissionResult)
    (h : ∀ f t, runTask f t = Except.ok (g f t)) :
    ∀ tasks, harvest runTask tasks = tasks.map (fun p => g p.1 p.2) := by
  intro tasks
  induction tasks with
  | nil => rfl
  | cons task rest ih =>
    simp only [harvest, h task.1 task.2, ih, List.map_cons]

theorem submit_all_ne (targets : List Target)
    (runTask : List Char → Target → Except (List Char) SubmissionResult)
    (flags : List (List Char)) (hne : flags.isEmpty = false) :
    submit_all targets runTask flags =
      match successRate (harvest runTask (crossTasks flags targets)) with
      | none => Except.error RunError.zeroDivision
      | some _ => Except.ok (harvest runTask (crossTasks flags targets)) := by
  unfold submit_all
  rw [hne]
  rfl

/-- C9 (as stated, refuted): a run of one flag and one target whose only
harvest raises does not merely drop the task: the empty results list
makes the success-rate division raise, aborting the run. -/
theorem c9_counterexample :
    submit_all [defaultTarget2] (fun _ _ => Except.error ("unexpected".toList))
      [flagB] = Except.error RunError.zeroDivision :=
  rfl

/-- C9 (amended): every results list submit_all returns has length at
most flags × targets, and when no harvesting exception occurs (and at
least one target is configured, as construction guarantees) submit_all
returns exactly flags × targets results; but when every harvest raises on
a non-empty task list, the run aborts in the success-rate computation
rather than returning the empty list. -/
theorem c9_result_count (targets : List Target)
    (runTask : List Char → Target → Except (List Char) SubmissionResult)
    (flags : List (List Char)) (g : List Char → Target → SubmissionResult) :
    (∀ rs, submit_all targets runTask flags = Except.ok rs →
      rs.length ≤ flags.length * targets.length) ∧
    ((∀ f t, runTask f t = Except.ok (g f t)) → targets ≠ [] →
      submit_all targets runTask flags =
        Except.ok (harvest runTask (crossTasks flags targets)) ∧
      (harvest runTask (crossTasks flags targets)).length =
        flags.length * targets.length) := by
  constructor
  · intro rs hrs
    by_cases hf : flags.isEmpty
    · unfold submit_all at hrs
      rw [if_pos hf] at hrs
      cases hrs
      simp
    · rw [submit_all_ne targets runTask flags (Bool.of_not_eq_true hf)] at hrs
      rcases hsr : successRate (harvest runTask (crossTasks flags targets))
        with _ | q <;> rw [hsr] at hrs
      · cases hrs
      · cases hrs
        calc (harvest runTask (crossTasks flags targets)).length
            ≤ (crossTasks flags targets).length := harvest_length_le _ _
          _ = flags.length * targets.length := crossTasks_length flags targets
  · intro hok htne
    cases flags with
    | nil => exact ⟨rfl, by simp [harvest, crossTasks]⟩
    | cons f fs =>
      have hlen : (harvest runTask (crossTasks (f :: fs) targets)).length =
          (f :: fs).length * targets.length := by
        rw [harvest_all_ok runTask g hok, List.length_map, crossTasks_length]
      refine ⟨?_, hlen⟩
      have hpos : (harvest runTask (crossTasks (f :: fs) targets)).length ≠ 0 := by
        rw [hlen]
        have h2 : targets.length ≠ 0 :=
          fun h0 => htne (List.length_eq_zero.mp h0)
        exact Nat.mul_ne_zero (by simp) h2
      rw [submit_all_ne targets runTask (f :: fs) rfl]
      unfold successRate
      rw [if_neg hpos]

/-- Witness for c9_result_count: two flags over the two default targets
with no harvesting exceptions give exactly four results. -/
theorem c9_result_count_witness :
    submit_all [defaultTarget1, defaultTarget2]
        (fun f t => Except.ok (initResult t f)) [sampleFlag, flagB] =
      Except.ok (harvest (fun f t => Except.ok (initResult t f))
        (crossTasks [sampleFlag, flagB] [defaultTarget1, defaultTarget2])) ∧
    (harvest (fun f t => Except.ok (initResult t f))
      (crossTasks [sampleFlag, flagB] [defaultTarget1, defaultTarget2])).length
      = 4 :=
  (c9_result_count [defaultTarget1, defaultTarget2]
    (fun f t => Except.ok (initResult t f)) [sampleFlag, flagB]
    (fun f t => initResult t f)).2 (fun _ _ => rfl) (List.cons_ne_nil _ _)

theorem crossTasks_getElem (flags : List (List Char)) (targets : List Target) :
    ∀ i j (hi : i < flags.length) (hj : j < targets.length),
      (crossTasks flags targets)[i * targets.length + j]? =
        some (flags[i], targets[j]) := by
  induction flags with
  | nil =>
    intro i j hi _
    exact absurd hi (Nat.not_lt_zero i)
  | cons f fs ih =>
    intro i j hi hj
    cases i with
    | zero =>
      show (targets.map (fun t => (f, t)) ++ crossTasks fs targets)[
        0 * targets.length + j]? = _
      rw [show 0 * targets.length + j = j by omega,
        List.getElem?_append_left (by simpa using hj), List.getElem?_map,
        List.getElem?_eq_getElem hj]
      rfl
    | succ i =>
      have hmap : (targets.map (fun t => (f, t))).length = targets.length :=
        List.length_map _ _
      have hle : (targets.map (fun t => (f, t))).length ≤
          (i + 1) * targets.length + j := by
        rw [hmap, Nat.succ_mul]
        omega
      show (targets.map (fun t => (f, t)) ++ crossTasks fs targets)[
        (i + 1) * targets.length + j]? = _
      rw [List.getElem?_append_right hle, hmap,
        show (i + 1) * targets.length + j - targets.length =
          i * targets.length + j by rw [Nat.succ_mul]; omega,
        ih i j (Nat.lt_of_succ_lt_succ hi) hj]
      rfl

/-- C10: when no harvesting exception occurs, the results come back in
task-creation order — the futures list is iterated in the order it was
built — so the result at position i × (number of targets) + j is the
outcome of submitting flag i to target j (zero-based). -/
theorem c10_order (flags : List (List Char)) (targets : List Target)
    (runTask : List Char → Target → Except (List Char) SubmissionResult)
    (g : List Char → Target → SubmissionResult)
    (h : ∀ f t, runTask f t = Except.ok (g f t))
    (i j : Nat) (hi : i < flags.length) (hj : j < targets.length) :
    submit_all targets runTask flags =
      Except.ok (harvest runTask (crossTasks flags targets)) ∧
    (harvest runTask (crossTasks flags targets))[i * targets.length + j]? =
      some (g flags[i] targets[j]) := by
  have hne : flags.isEmpty = false := by
    cases flags with
    | nil => exact absurd hi (by simp)
    | cons a l => rfl
  have hharv := harvest_all_ok runTask g h (crossTasks flags targets)
  have hpos : (harvest runTask (crossTasks flags targets)).length ≠ 0 := by
    rw [hharv, List.length_map, crossTasks_length]
    exact Nat.mul_ne_zero (by omega) (by omega)
  constructor
  · rw [submit_all_ne targets runTask flags hne]
    unfold successRate
    rw [if_neg hpos]
  · rw [hharv, List.getElem?_map, crossTasks_getElem flags targets i j hi hj]
    rfl

/-- Witness for c10_order: two flags over the two default targets; the
harvested result at position 1 × 2 + 0 = 2 is the submission of the
second flag to the first target. -/
theorem c10_order_witness :
    submit_all [defaultTarget1, defaultTarget2]
        (fun f t => Except.ok (initResult t f)) [sampleFlag, flagB] =
      Except.ok (harvest (fun f t => Except.ok (initResult t f))
        (crossTasks [sampleFlag, flagB] [defaultTarget1, defaultTarget2])) ∧
    (harvest (fun f t => Except.ok (initResult t f))
      (crossTasks [sampleFlag, flagB] [defaultTarget1, defaultTarget2]))[2]? =
      some (initResult defaultTarget1 flagB) :=
  c10_order [sampleFlag, flagB] [defaultTarget1, defaultTarget2]
    (fun f t => Except.ok (initResult t f)) (fun f t => initResult t f)
    (fun _ _ => rfl) 1 0 (by decide) (by decide)

theorem matchChar_eq_some (a : Char) (cs r : List Char) :
    matchChar a cs = some r ↔ cs = a :: r := by
  cases cs with
  | nil => simp [matchChar]
  | cons c cs =>
    by_cases h : c = a
    · subst h
      simp [matchChar]
    · simp [matchChar, h]

theorem matchHexN_eq_some (n : Nat) :
    ∀ cs r, matchHexN n cs = some r ↔
      ∃ g, cs = g ++ r ∧ g.length = n ∧ ∀ c ∈ g, isHexCI c = true := by
  induction n with
  | zero =>
    intro cs r
    constructor
    · intro h
      have h2 : some cs = some r := h
      injection h2 with h3
      subst h3
      exact ⟨[], rfl, rfl, by simp⟩
    · rintro ⟨g, h1, h2, _⟩
      rw [List.length_eq_zero] at h2
      subst h2
      exact congrArg some (by simpa using h1)
  | succ n ih =>
    intro cs r
    cases cs with
    | nil =>
      constructor
      · intro h
        cases h
      · rintro ⟨g, h1, h2, _⟩
        have hl := congrArg List.length h1
        rw [List.length_append] at hl
        simp only [List.length_nil] at hl
        omega
    | cons c cs =>
      by_cases hc : isHexCI c = true
      · have hstep : matchHexN (n + 1) (c :: cs) = matchHexN n cs := by
          rw [matchHexN, if_pos hc]
        rw [hstep, ih cs r]
        constructor
        · rintro ⟨g, rfl, hlen, hhex⟩
          refine ⟨c :: g, rfl, by simp [hlen], ?_⟩
          intro x hx
          rcases List.mem_cons.mp hx with hxc | hxg
          · rw [hxc]
            exact hc
          · exact hhex x hxg
        · rintro ⟨g, h1, h2, h3⟩
          cases g with
          | nil => simp at h2
          | cons d g =>
            injection h1 with hd htl
            refine ⟨g, htl, ?_, ?_⟩
            · have := h2
              simp only [List.length_cons] at this
              omega
            · intro x hx
              exact h3 x (List.mem_cons_of_mem d hx)
      · have hstep : matchHexN (n + 1) (c :: cs) = none := by
          rw [matchHexN, if_neg hc]
        rw [hstep]
        constructor
        · intro h
          cases h
        · rintro ⟨g, h1, h2, h3⟩
          cases g with
          | nil => simp at h2
          | cons d g =>
            injection h1 with hd htl
            have hdx := h3 d (List.mem_cons_self d g)
            rw [← hd] at hdx
            exact absurd hdx hc

theorem matchLitCI_eq_some (lit : List Char) :
    ∀ cs r, matchLitCI lit cs = some r ↔
      ∃ p, cs = p ++ r ∧ p.map Char.toLower = lit.map Char.toLower := by
  induction lit with
  | nil =>
    intro cs r
    constructor
    · intro h
      have h2 : some cs = some r := h
      injection h2 with h3
      subst h3
      exact ⟨[], rfl, rfl⟩
    · rintro ⟨p, h1, h2⟩
      simp only [List.map_nil, List.map_eq_nil_iff] at h2
      subst h2
      exact congrArg some (by simpa using h1)
  | cons l ls ih =>
    intro cs r
    cases cs with
    | nil =>
      constructor
      · intro h
        cases h
      · rintro ⟨p, h1, h2⟩
        have hl1 := congrArg List.length h1
        have hl2 := congrArg List.length h2
        rw [List.length_append] at hl1
        simp only [List.length_nil] at hl1
        simp only [List.length_map, List.length_cons] at hl2
        omega
    | cons c cs =>
      by_cases hc : c.toLower = l.toLower
      · have hstep : matchLitCI (l :: ls) (c :: cs) = matchLitCI ls cs := by
          rw [matchLitCI, if_pos hc]
        rw [hstep, ih cs r]
        constructor
        · rintro ⟨p, rfl, h2⟩
          exact ⟨c :: p, rfl, by simp [List.map_cons, hc, h2]⟩
        · rintro ⟨p, h1, h2⟩
          cases p with
          | nil => simp at h2
          | cons d p =>
            injection h1 with hd htl
            subst hd
            simp only [List.map_cons] at h2
            injection h2 with h2a h2b
            exact ⟨p, htl, h2b⟩
      · have hstep : matchLitCI (l :: ls) (c :: cs) = none := by
          rw [matchLitCI, if_neg hc]
        rw [hstep]
        constructor
        · intro h
          cases h
        · rintro ⟨p, h1, h2⟩
          cases p with
          | nil => simp at h2
          | cons d p =>
            injection h1 with hd htl
            simp only [List.map_cons] at h2
            injection h2 with h2a h2b
            rw [hd] at hc
            exact absurd h2a hc

theorem flagLit_lower : flagLit.map Char.toLower = flagLit := by decide

theorem fullmatchFlag_isSome_iff (cs : List Char) :
    (fullmatchFlag cs).isSome = true ↔ SpecFlagShape cs := by
  rw [Option.isSome_iff_exists]
  constructor
  · rintro ⟨u, hu⟩
    simp only [fullmatchFlag, Option.bind_eq_some] at hu
    obtain ⟨r0, h0, r1, h1, r2, h2, r3, h3, r4, h4, r5, h5, r6, h6, r7, h7,
      r8, h8, r9, h9, r10, h10, hfin⟩ := hu
    have hr10 : r10 = [] := by
      by_cases hE : r10.isEmpty
      · exact List.isEmpty_iff.mp hE
      · rw [if_neg hE] at hfin
        cases hfin
    subst hr10
    obtain ⟨p, hcs, hp⟩ := (matchLitCI_eq_some flagLit cs r0).mp h0
    obtain ⟨g1, he1, hl1, hh1⟩ := (matchHexN_eq_some 8 r0 r1).mp h1
    have he2 := (matchChar_eq_some '-' r1 r2).mp h2
    obtain ⟨g2, he3, hl3, hh3⟩ := (matchHexN_eq_some 4 r2 r3).mp h3
    have he4 := (matchChar_eq_some '-' r3 r4).mp h4
    obtain ⟨g3, he5, hl5, hh5⟩ := (matchHexN_eq_some 4 r4 r5).mp h5
    have he6 := (matchChar_eq_some '-' r5 r6).mp h6
    obtain ⟨g4, he7, hl7, hh7⟩ := (matchHexN_eq_some 4 r6 r7).mp h7
    have he8 := (matchChar_eq_some '-' r7 r8).mp h8
    obtain ⟨g5, he9, hl9, hh9⟩ := (matchHexN_eq_some 12 r8 r9).mp h9
    have he10 := (matchChar_eq_some rbrace r9 []).mp h10
    subst hcs he1 he2 he3 he4 he5 he6 he7 he8 he9 he10
    rw [flagLit_lower] at hp
    exact ⟨p, g1, g2, g3, g4, g5, hp, ⟨hl1, hh1⟩, ⟨hl3, hh3⟩, ⟨hl5, hh5⟩,
      ⟨hl7, hh7⟩, ⟨hl9, hh9⟩, rfl⟩
  · rintro ⟨p, g1, g2, g3, g4, g5, hp, hg1, hg2, hg3, hg4, hg5, rfl⟩
    refine ⟨(), ?_⟩
    simp only [fullmatchFlag, Option.bind_eq_some]
    exact ⟨g1 ++ ('-' :: (g2 ++ ('-' :: (g3 ++ ('-' :: (g4 ++ ('-' ::
        (g5 ++ [rbrace])))))))),
      (matchLitCI_eq_some flagLit _ _).mpr ⟨p, rfl, by rw [hp, flagLit_lower]⟩,
      '-' :: (g2 ++ ('-' :: (g3 ++ ('-' :: (g4 ++ ('-' :: (g5 ++ [rbrace]))))))),
      (matchHexN_eq_some 8 _ _).mpr ⟨g1, rfl, hg1.1, hg1.2⟩,
      g2 ++ ('-' :: (g3 ++ ('-' :: (g4 ++ ('-' :: (g5 ++ [rbrace])))))),
      (matchChar_eq_some '-' _ _).mpr rfl,
      '-' :: (g3 ++ ('-' :: (g4 ++ ('-' :: (g5 ++ [rbrace]))))),
      (matchHexN_eq_some 4 _ _).mpr ⟨g2, rfl, hg2.1, hg2.2⟩,
      g3 ++ ('-' :: (g4 ++ ('-' :: (g5 ++ [rbrace])))),
      (matchChar_eq_some '-' _ _).mpr rfl,
      '-' :: (g4 ++ ('-' :: (g5 ++ [rbrace]))),
      (matchHexN_eq_some 4 _ _).mpr ⟨g3, rfl, hg3.1, hg3.2⟩,
      g4 ++ ('-' :: (g5 ++ [rbrace])),
      (matchChar_eq_some '-' _ _).mpr rfl,
      '-' :: (g5 ++ [rbrace]),
      (matchHexN_eq_some 4 _ _).mpr ⟨g4, rfl, hg4.1, hg4.2⟩,
      g5 ++ [rbrace],
      (matchChar_eq_some '-' _ _).mpr rfl,
      [rbrace],
      (matchHexN_eq_some 12 _ _).mpr ⟨g5, rfl, hg5.1, hg5.2⟩,
      [],
      (matchChar_eq_some rbrace _ _).mpr rfl,
      rfl⟩

/-- C3: the validator accepts a string exactly when its stripped form has
the canonical shape as a whole — a case-insensitive literal prefix (flag
and an opening brace), a 32-hex-digit body split 8-4-4-4-12 by hyphens,
and a closing brace.  The equivalence is whole-string: a string that
merely contains the pattern, or deviates from it in one character, is
rejected. -/
theorem c3_validator_iff (s : List Char) :
    validateFlag s = true ↔ SpecFlagShape (pyStrip s) :=
  fullmatchFlag_isSome_iff (pyStrip s)

/-- Witness for c3_validator_iff: the sample flag is accepted, hence its
stripped form has the canonical shape. -/
theorem c3_validator_iff_witness : SpecFlagShape (pyStrip sampleFlag) :=
  (c3_validator_iff sampleFlag).mp (by decide)

end AWD
